import Mathlib

/-!
Shallow embedding of the nlon protocol core (packages/nlon/lib): the message
model and validation (protocol.mjs), the Correspondence read/write machinery
(correspondence/correspondence.mjs), the Peer dispatch (peer.mjs) and the
Server handler/exception pipeline (server.mjs).  JavaScript `undefined`
(absent field) is modelled as `Option.none`; throwing code returns `Except`.
-/

namespace Nlon

/-- JSON values, the universe of message bodies and header fields. -/
inductive Json where
  | null
  | bool (b : Bool)
  | num (n : Int)
  | str (s : String)
  | arr (elems : List Json)
  | obj (fields : List (String × Json))

/-- JavaScript truthiness of a JSON value: `null`, `false`, `0` and `""` are
falsy; arrays and objects are always truthy. -/
def Json.truthy : Json → Bool
  | .null => false
  | .bool b => b
  | .num n => n != 0
  | .str s => s != ""
  | .arr _ => true
  | .obj _ => true

/-- MessageError from protocol.mjs: a short `type` tag and a human-readable
`message`.  Either field may be absent on a raw wire object. -/
structure MessageError where
  type : Option String := none
  message : Option String := none
deriving DecidableEq, Repr

/-- MessageHeader from protocol.mjs: `correspondenceId` and `subject` are
required by validation, `authorization` is optional.  Fields are `Option`
because raw wire objects may omit any of them. -/
structure MessageHeader where
  correspondenceId : Option String := none
  subject : Option String := none
  authorization : Option String := none
deriving DecidableEq, Repr

/-- The MessageHeader constructor: copies the options and then assigns a
generated id (`nanoid()`) when `correspondenceId` is nullish
(`this.correspondenceId ??= nanoid()`).  The generated id is passed in
explicitly since id generation is random. -/
def MessageHeader.construct (generatedId : String) (options : MessageHeader) :
    MessageHeader :=
  { options with correspondenceId := some (options.correspondenceId.getD generatedId) }

/-- MessageTypes from protocol.mjs: the wire tags.  The `Request` kind has no
tag; it is represented by an absent `type` field. -/
def MessageTypes.Data : String := "data"

/-- Wire tag of error messages. -/
def MessageTypes.Error : String := "err"

/-- Wire tag of finish messages. -/
def MessageTypes.Finish : String := "fin"

/-- Message from protocol.mjs.  All fields are `Option` so the same type
covers raw parsed wire objects (any field may be missing) and constructed
messages. -/
structure Message where
  type : Option String := none
  header : Option MessageHeader := none
  error : Option MessageError := none
  body : Option Json := none

/-- The Message constructor: each of `type`, `error` and `body` is copied
only when truthy (`options.type && (this.type = options.type)` and so on);
`header` falls back to a fresh default header when the option is falsy.
A present `MessageError` object is always truthy, so `error` is copied
whenever present; a falsy JSON `body` (0, "", false, null) is dropped. -/
def Message.construct (defaultHeader : MessageHeader) (options : Message) :
    Message :=
  { type := match options.type with
      | some t => if t != "" then some t else none
      | none => none
    header := some (options.header.getD defaultHeader)
    error := options.error
    body := match options.body with
      | some b => if b.truthy then some b else none
      | none => none }

/-- Message.validate from protocol.mjs (part_036): asserts that `header` is
present, that `header.correspondenceId` has positive length and that
`header.subject` has positive length.  Nothing else is checked: the `type`
tag and the `error` payload are not inspected.  Returns `true` when no
assertion throws. -/
def Message.validate (message : Message) : Bool :=
  match message.header with
  | none => false
  | some h =>
    decide (0 < ((h.correspondenceId.map String.length).getD 0)) &&
    decide (0 < ((h.subject.map String.length).getD 0))

/-- Modelled from the spec: the validity predicate of claim C2 ("a message is
valid iff header is an object, header.correspondenceId and header.subject are
non-empty strings, type (if present) is one of the four tags, and when type
is Error, error.type and error.message are non-empty strings").  This is the
spec-side definition, to be compared with `Message.validate` above. -/
def specValidMessage (message : Message) : Bool :=
  (match message.header with
   | none => false
   | some h =>
     decide (0 < ((h.correspondenceId.map String.length).getD 0)) &&
     decide (0 < ((h.subject.map String.length).getD 0))) &&
  (match message.type with
   | none => true
   | some t =>
     (t == MessageTypes.Data) || (t == MessageTypes.Error) ||
     (t == MessageTypes.Finish)) &&
  (if message.type == some MessageTypes.Error then
     match message.error with
     | some e =>
       decide (0 < ((e.type.map String.length).getD 0)) &&
       decide (0 < ((e.message.map String.length).getD 0))
     | none => false
   else true)

/-- A syntactically well-formed message carrying an unknown `type` tag: the
repository's protocol documentation and protocol.test.mjs declare such a
message invalid, yet `Message.validate` accepts it. -/
def c2FailingMessage : Message :=
  { type := some "bogus"
    header := some { correspondenceId := some "c", subject := some "s" } }

/-- Failures raised by Correspondence methods. -/
inductive CorrespondenceFailure where
  | unwritable
  | unreadable
deriving DecidableEq, Repr

/-- State of one Correspondence (correspondence.mjs): the `readable` and
`writable` flags, the current header, and the messages this correspondence
has written to its stream (in order).  `writable` is initialised by the
constructor from the truthiness of the stream and of the header's
`correspondenceId` and `subject`. -/
structure Correspondence where
  readable : Bool
  writable : Bool
  header : MessageHeader
  sent : List Message

/-- The Correspondence constructor: `readable` starts `true`; `writable`
mirrors `this.#stream && this.#header.correspondenceId &&
this.#header.subject` (truthiness of the stream reference and of the two
header strings). -/
def Correspondence.construct (streamPresent : Bool) (header : MessageHeader) :
    Correspondence :=
  { readable := true
    writable := streamPresent &&
      (header.correspondenceId.getD "" != "") && (header.subject.getD "" != "")
    header := header
    sent := [] }

/-- Correspondence#makeMessage: builds a Message through the Message
constructor with the correspondence's stored header. -/
def Correspondence.makeMessage (c : Correspondence) (type : Option String)
    (body : Option Json) (error : Option MessageError) : Message :=
  Message.construct c.header
    { type := type, header := some c.header, error := error, body := body }

/-- Correspondence#write: `#ensureWritable()` (throws
UnwritableCorrespondenceError when `writable` is false) and then a single
`stream.write` of the serialized message. -/
def Correspondence.writeMessage (c : Correspondence) (m : Message) :
    Except CorrespondenceFailure Correspondence :=
  if c.writable then .ok { c with sent := c.sent ++ [m] }
  else .error .unwritable

/-- Correspondence.write: sends one Data message; the correspondence stays
writable. -/
def Correspondence.write (c : Correspondence) (data : Json) :
    Except CorrespondenceFailure Correspondence :=
  c.writeMessage (c.makeMessage (some MessageTypes.Data) (some data) none)

/-- Correspondence.finish: sends one Finish message (optional body), then
sets `writable := false`.  The write happens first, so an unwritable
correspondence throws without emitting anything or changing state. -/
def Correspondence.finish (c : Correspondence) (data : Option Json) :
    Except CorrespondenceFailure Correspondence :=
  match c.writeMessage (c.makeMessage (some MessageTypes.Finish) data none) with
  | .ok c2 => .ok { c2 with writable := false }
  | .error e => .error e

/-- Correspondence.error: sends one Error message, then sets
`writable := false`. -/
def Correspondence.error (c : Correspondence) (err : MessageError) :
    Except CorrespondenceFailure Correspondence :=
  match c.writeMessage (c.makeMessage (some MessageTypes.Error) none (some err)) with
  | .ok c2 => .ok { c2 with writable := false }
  | .error e => .error e

/-- A write-side call on a correspondence, for reasoning about arbitrary
sequences of user calls. -/
inductive WriteCommand where
  | write (data : Json)
  | finish (data : Option Json)
  | error (err : MessageError)

/-- Applies one write-side call. -/
def Correspondence.applyCommand (c : Correspondence) :
    WriteCommand → Except CorrespondenceFailure Correspondence
  | .write d => c.write d
  | .finish d => c.finish d
  | .error e => c.error e

/-- Runs a sequence of write-side calls where the caller catches every
failure and keeps going: a throwing call leaves the state unchanged. -/
def Correspondence.runCommands (c : Correspondence) :
    List WriteCommand → Correspondence
  | [] => c
  | cmd :: rest =>
    match c.applyCommand cmd with
    | .ok c2 => c2.runCommands rest
    | .error _ => c.runCommands rest

/-- Events published by Correspondence.handle towards the waiter of
`next`/`all` (the `#internal` emitter).  `data` carries the message body,
which may be absent (`undefined` chunk); its flag mirrors the `isLast`
argument of the source's `data` event.  `ingestThrow` marks the case where
the `CorrespondenceError` constructor throws during ingestion (Error frame
whose `error` payload lacks a truthy `type` or `message`): the flags have
already been updated but no event reaches the waiter. -/
inductive ReadEvent where
  | data (body : Option Json) (isLast : Bool)
  | finish
  | error (err : MessageError)
  | ingestThrow

/-- Correspondence.handle: routes one inbound message.  A Data frame updates
the header and publishes its body (present or not) as a data chunk; a Finish
frame marks the correspondence unreadable and publishes its body first when
one is present, then the finish signal; an Error frame marks it unreadable
and publishes a `CorrespondenceError` built from the payload (whose
constructor asserts that `error.type` and `error.message` are truthy).  A
frame with an absent or unknown `type` matches none of the branches and is
ignored. -/
def Correspondence.handle (c : Correspondence) (message : Message) :
    Correspondence × List ReadEvent :=
  if message.type == some MessageTypes.Data then
    ({ c with header := message.header.getD c.header },
     [.data message.body false])
  else if message.type == some MessageTypes.Finish then
    ({ c with readable := false, header := message.header.getD c.header },
     (match message.body with
      | some b => [.data (some b) true]
      | none => []) ++ [.finish])
  else if message.type == some MessageTypes.Error then
    ({ c with readable := false, header := message.header.getD c.header },
     match message.error with
     | some e =>
       if (e.type.getD "" != "") && (e.message.getD "" != "") then [.error e]
       else [.ingestThrow]
     | none => [.ingestThrow])
  else (c, [])

/-- Outcome of one `#nextChunk` wait: the promise is settled by whichever of
the `data`/`finish`/`error` events fires first; `pending` means no event
settled it yet. -/
inductive NextOutcome where
  | chunk (body : Option Json)
  | finished
  | raised (err : MessageError)
  | pending

/-- The first settling event of a batch published by one ingested frame. -/
def nextChunkOutcome : List ReadEvent → NextOutcome
  | [] => .pending
  | .data b _ :: _ => .chunk b
  | .finish :: _ => .finished
  | .error e :: _ => .raised e
  | .ingestThrow :: rest => nextChunkOutcome rest

/-- Result of running the `all` generator against a frame sequence: the
chunks it yielded, and whether it completed normally, propagated an error
frame, or is still awaiting input. -/
inductive AllResult where
  | finished (chunks : List (Option Json))
  | errored (chunks : List (Option Json)) (err : MessageError)
  | pending (chunks : List (Option Json))

/-- Prepends a yielded chunk to a generator result. -/
def AllResult.consChunk (b : Option Json) : AllResult → AllResult
  | .finished cs => .finished (b :: cs)
  | .errored cs e => .errored (b :: cs) e
  | .pending cs => .pending (b :: cs)

/-- The body of the `all` generator with one `#nextChunk` waiter pending:
frames are ingested (via `handle`) until one settles the waiter.  A resolved
data chunk is yielded, after which the `while (this.readable)` loop either
starts the next wait or, when the settling frame was a Finish with body,
completes the generator; the finish signal completes it; an error rejection
propagates out of the generator.  A frame that settles nothing (absent or
unknown `type`, or a throwing `CorrespondenceError` construction) leaves the
waiter pending without the loop condition being re-checked. -/
def Correspondence.allRun : Correspondence → List Message → AllResult
  | _, [] => .pending []
  | c, m :: ms =>
    match nextChunkOutcome (c.handle m).2 with
    | .pending => Correspondence.allRun (c.handle m).1 ms
    | .chunk b =>
      if (c.handle m).1.readable then
        ((c.handle m).1.allRun ms).consChunk b
      else
        AllResult.consChunk b (.finished [])
    | .finished => .finished []
    | .raised e => .errored [] e

/-- Correspondence.all: the async generator.  While `readable`, it awaits
the next chunk; called on an already-unreadable correspondence it completes
at once without yielding.  Read handlers are not modelled: they only
post-process each chunk. -/
def Correspondence.all (c : Correspondence) (frames : List Message) :
    AllResult :=
  if c.readable then Correspondence.allRun c frames else .finished []

/-- The correspondence id a message is filed under by the Peer
(`message.header.correspondenceId`); validated messages always carry one. -/
def Message.correspondenceKey (m : Message) : String :=
  (m.header.bind (fun h => h.correspondenceId)).getD ""

/-- Lookup in the Peer's correspondence map, modelled as an association
list keyed by correspondence id. -/
def corrGet : List (String × Correspondence) → String → Option Correspondence
  | [], _ => none
  | p :: ps, id => if p.1 == id then some p.2 else corrGet ps id

/-- `Map.set`: replaces the value under an existing key, otherwise appends
a new entry. -/
def corrSet (entries : List (String × Correspondence)) (id : String)
    (c : Correspondence) : List (String × Correspondence) :=
  match entries with
  | [] => [(id, c)]
  | p :: ps => if p.1 == id then (id, c) :: ps else p :: corrSet ps id c

/-- Failures raised by Peer methods. -/
inductive PeerFailure where
  | peerDisconnected
  | invalidMessage
deriving DecidableEq, Repr

/-- State of one Peer (peer.mjs): the connection flag (`isConnected` is
`this.#stream !== undefined`), the correspondence map, and the frames the
Peer itself has written to the stream via `send`. -/
structure Peer where
  isConnected : Bool
  correspondences : List (String × Correspondence)
  sentFrames : List Message

/-- A freshly constructed, connected Peer with no correspondences. -/
def Peer.construct : Peer :=
  { isConnected := true, correspondences := [], sentFrames := [] }

/-- Peer.send: requires a connected peer (PeerDisconnectedError otherwise);
defaults a nullish `type` to Data (`message.type ??= MessageTypes.Data`);
validates; writes exactly one frame (the message itself, serialized); then
constructs a Correspondence from the message header and the stream, records
it in the map under the message's correspondence id, and returns it. -/
def Peer.send (p : Peer) (message : Message) :
    Except PeerFailure (Peer × Correspondence) :=
  if p.isConnected then
    let message := { message with type := some (message.type.getD MessageTypes.Data) }
    if Message.validate message then
      match message.header with
      | some h =>
        let result := Correspondence.construct true h
        .ok ({ p with
                sentFrames := p.sentFrames ++ [message]
                correspondences :=
                  corrSet p.correspondences message.correspondenceKey result },
             result)
      | none => .error .invalidMessage
    else .error .invalidMessage
  else .error .peerDisconnected

/-- Peer.disconnect: detaches the message handler from the parser pipe,
emits the `disconnect` event and clears the stream references, so that
`isConnected` becomes false.  The correspondence map is not touched: no
correspondence is marked unreadable or unwritable, and no pending waiter is
resolved. -/
def Peer.disconnect (p : Peer) : Peer :=
  { p with isConnected := false }

/-- Observable actions of Peer#handleMessage and Peer#ensureCorrespondence,
in execution order. -/
inductive PeerAction where
  | emitInvalidMessage
  | createCorrespondence (id : String)
  | emitCorrespondenceEvent (id : String)
  | insertCorrespondence (id : String)
  | ingest (id : String)
deriving DecidableEq, Repr

/-- Peer#handleMessage: validates the inbound message (on failure an
InvalidMessageError is emitted and the message dropped); then
`#ensureCorrespondence` either finds the tracked correspondence for the id
or — exactly in this order — creates a new one from the header and stream,
emits the `correspondence` event with it, and inserts it into the map; the
message is then ingested into the resulting correspondence via `handle`. -/
def Peer.handleMessage (p : Peer) (message : Message) :
    Peer × List PeerAction :=
  if Message.validate message then
    let id := message.correspondenceKey
    match corrGet p.correspondences id with
    | some c =>
      ({ p with correspondences := corrSet p.correspondences id (c.handle message).1 },
       [.ingest id])
    | none =>
      let result := Correspondence.construct p.isConnected
        (message.header.getD {})
      ({ p with correspondences :=
          corrSet p.correspondences id (result.handle message).1 },
       [.createCorrespondence id, .emitCorrespondenceEvent id,
        .insertCorrespondence id, .ingest id])
  else (p, [.emitInvalidMessage])

/-- Thrown JavaScript values are opaque to the Server (any value may be
thrown); they are modelled as strings. -/
abbrev ExceptionValue := String

/-- One step of a correspondence handler's interaction with the
correspondence it was given: a write-side call, or throwing a value. -/
inductive HandlerStep where
  | write (data : Json)
  | finish (data : Option Json)
  | error (err : MessageError)
  | throwValue (v : ExceptionValue)

/-- Runs a handler body over its correspondence: each step is executed in
order; an explicit `throwValue`, or an uncaught failure from a write-side
call (for instance an UnwritableCorrespondenceError), aborts the body and
becomes the handler's thrown value. -/
def runHandlerScript (c : Correspondence) :
    List HandlerStep → Correspondence × Option ExceptionValue
  | [] => (c, none)
  | step :: rest =>
    match step with
    | .throwValue v => (c, some v)
    | .write d =>
      match c.write d with
      | .ok c2 => runHandlerScript c2 rest
      | .error _ => (c, some "UnwritableCorrespondenceError")
    | .finish d =>
      match c.finish d with
      | .ok c2 => runHandlerScript c2 rest
      | .error _ => (c, some "UnwritableCorrespondenceError")
    | .error e =>
      match c.error e with
      | .ok c2 => runHandlerScript c2 rest
      | .error _ => (c, some "UnwritableCorrespondenceError")

/-- An exception handler is given the thrown value (together with a writable
view of the correspondence, which shares all state with it) and reacts with
a handler body. -/
abbrev ExceptionHandler := ExceptionValue → List HandlerStep

/-- The loop of Server#handleException, with the invoked handler positions
recorded (`i` is the position of the list head).  Before each handler the
loop checks `correspondence.writable` and breaks when it is false; each
handler is awaited in turn and is passed the writable view and the thrown
value; a handler that itself throws aborts the loop with that value. -/
def runExceptionHandlers (e : ExceptionValue) (i : Nat) :
    Correspondence → List ExceptionHandler →
      Correspondence × Option ExceptionValue × List Nat
  | c, [] => (c, none, [])
  | c, h :: hs =>
    if c.writable then
      match runHandlerScript c (h e) with
      | (c2, none) =>
        let r := runExceptionHandlers e (i + 1) c2 hs
        (r.1, r.2.1, i :: r.2.2)
      | (c2, some v) => (c2, some v, [i])
    else (c, none, [])

/-- The error sent by the recovery path of Server#handleException when an
exception handler itself throws. -/
def genericMessageError : MessageError :=
  { type := some "GenericError", message := some "Failed processing correspondence" }

/-- Server#handleException: wraps the correspondence as a writable view and
iterates the exception handlers; if the loop is aborted by a handler's own
exception, the catch block logs and sends a final Error frame with
`genericMessageError` — a call that itself throws
UnwritableCorrespondenceError when the correspondence is no longer
writable, in which case no frame is emitted. -/
def Server.handleException (c : Correspondence)
    (exceptionHandlers : List ExceptionHandler) (e : ExceptionValue) :
    Correspondence × Option ExceptionValue :=
  match runExceptionHandlers e 0 c exceptionHandlers with
  | (c2, none, _) => (c2, none)
  | (c2, some _, _) =>
    match c2.error genericMessageError with
    | .ok c3 => (c3, none)
    | .error _ => (c2, some "UnwritableCorrespondenceError")

/-- Error events emitted by the Server. -/
inductive ServerEvent where
  | unfinishedCorrespondence (c : Correspondence)

/-- Server#handleException registration (Server.handleException the public
method): the new handlers are reversed and prepended, so the most recently
registered handler sits at the head; the built-in default exception handler
stays at the tail. -/
def Server.registerExceptionHandlers (current newHandlers : List ExceptionHandler) :
    List ExceptionHandler :=
  newHandlers.reverse ++ current

/-- Server#applyHandler: awaits the subject handler; a thrown value enters
Server#handleException; finally, if the correspondence is still writable, an
UnfinishedCorrespondenceError carrying it is emitted on the Server (and
nothing is written on the correspondence by the Server itself).  The
un-awaited `#handleException` call is modelled sequentially: the pipeline is
taken to complete before the `finally` block observes `writable`. -/
def Server.applyHandler (exceptionHandlers : List ExceptionHandler)
    (c : Correspondence) (handler : List HandlerStep) :
    Correspondence × List ServerEvent :=
  let r := runHandlerScript c handler
  let afterPipeline :=
    match r.2 with
    | none => r.1
    | some e => (Server.handleException r.1 exceptionHandlers e).1
  (afterPipeline,
   if afterPipeline.writable then [.unfinishedCorrespondence afterPipeline]
   else [])

section HelperLemmas

/-- Lookup after a `Map.set`: the set key maps to the new value, other keys
are untouched. -/
theorem corrGet_corrSet (entries : List (String × Correspondence))
    (id i : String) (c : Correspondence) :
    corrGet (corrSet entries id c) i
      = if id = i then some c else corrGet entries i := by
  induction entries with
  | nil =>
    by_cases h : id = i <;> simp [corrSet, corrGet, h]
  | cons p ps ih =>
    by_cases hk : p.1 = id
    · by_cases h : id = i <;>
        simp [corrSet, corrGet, hk, h]
    · by_cases h : id = i
      · subst h
        simp [corrSet, corrGet, hk, ih]
      · by_cases hpi : p.1 = i <;>
          simp [corrSet, corrGet, hk, h, hpi, ih, Ne.symm h]

/-- Writing on an unwritable correspondence throws before anything reaches
the stream. -/
theorem writeMessage_unwritable {c : Correspondence} {m : Message}
    (h : c.writable = false) :
    c.writeMessage m = Except.error CorrespondenceFailure.unwritable := by
  simp [Correspondence.writeMessage, h]

/-- Writing on a writable correspondence emits exactly one frame. -/
theorem writeMessage_writable {c : Correspondence} {m : Message}
    (h : c.writable = true) :
    c.writeMessage m = Except.ok { c with sent := c.sent ++ [m] } := by
  simp [Correspondence.writeMessage, h]

/-- Correspondence.finish on a writable correspondence: one Finish frame and
the writable flag drops. -/
theorem finish_ok {c : Correspondence} (b : Option Json)
    (h : c.writable = true) :
    c.finish b = Except.ok
      { c with writable := false,
               sent := c.sent ++ [c.makeMessage (some MessageTypes.Finish) b none] } := by
  simp [Correspondence.finish, writeMessage_writable h]

/-- Correspondence.error on a writable correspondence: one Error frame and
the writable flag drops. -/
theorem error_ok {c : Correspondence} (e : MessageError)
    (h : c.writable = true) :
    c.error e = Except.ok
      { c with writable := false,
               sent := c.sent ++ [c.makeMessage (some MessageTypes.Error) none (some e)] } := by
  simp [Correspondence.error, writeMessage_writable h]

/-- All three write-side calls fail with UnwritableCorrespondenceError on an
unwritable correspondence. -/
theorem writes_fail_unwritable {c : Correspondence} (h : c.writable = false) :
    (∀ d, c.write d = Except.error CorrespondenceFailure.unwritable) ∧
    (∀ b, c.finish b = Except.error CorrespondenceFailure.unwritable) ∧
    (∀ e, c.error e = Except.error CorrespondenceFailure.unwritable) := by
  refine ⟨fun d => ?_, fun b => ?_, fun e => ?_⟩ <;>
    simp [Correspondence.write, Correspondence.finish, Correspondence.error,
      writeMessage_unwritable h]

end HelperLemmas

/-- C2: the claim states that Message.validate accepts a message exactly
when it is valid in the spec's sense — in particular that every message
whose `type` is an unknown string is rejected.  The code disagrees:
`c2FailingMessage` (valid header, `type := "bogus"`) passes
`Message.validate`, which checks only the header fields, while the
spec-side predicate `specValidMessage` — and the repository's own protocol
documentation and protocol tests — reject it. -/
theorem c2_validate_accepts_unknown_type :
    Message.validate c2FailingMessage = true ∧
      specValidMessage c2FailingMessage = false := by
  exact ⟨rfl, rfl⟩

/-- Correspondence used to witness claim C10. -/
def c10Corr : Correspondence :=
  Correspondence.construct true { correspondenceId := some "c10", subject := some "s" }

/-- C10: on a writable correspondence, `write` and `finish` called with a
falsy JSON body (0, "", false, null) emit a frame whose `body` field is
absent, because the Message constructor copies `type`, `error` and `body`
only when truthy; consequently the wire message of `write` on a falsy body
is identical to that of a body-less Data frame. -/
theorem c10_falsy_body_dropped (c : Correspondence) (hw : c.writable = true)
    (b : Json) (hb : b.truthy = false) :
    (c.write b = Except.ok { c with sent := c.sent ++
        [{ type := some MessageTypes.Data, header := some c.header,
           error := none, body := none }] }) ∧
    (c.finish (some b) = Except.ok { c with writable := false, sent := c.sent ++
        [{ type := some MessageTypes.Finish, header := some c.header,
           error := none, body := none }] }) ∧
    (c.makeMessage (some MessageTypes.Data) (some b) none
      = c.makeMessage (some MessageTypes.Data) none none) ∧
    (∀ (defaultHeader : MessageHeader) (options : Message),
      (Message.construct defaultHeader options).body
        = options.body.bind (fun v => if v.truthy then some v else none)) := by
  refine ⟨?_, ?_, ?_, ?_⟩
  · simp [Correspondence.write, writeMessage_writable hw,
      Correspondence.makeMessage, Message.construct, hb,
      MessageTypes.Data]
  · simp [Correspondence.finish, writeMessage_writable hw,
      Correspondence.makeMessage, Message.construct, hb,
      MessageTypes.Finish]
  · simp [Correspondence.makeMessage, Message.construct, hb]
  · intro defaultHeader options
    cases hob : options.body with
    | none => simp [Message.construct, hob]
    | some v => simp [Message.construct, hob]

/-- C10 witness: the hypotheses of `c10_falsy_body_dropped` hold at the
concrete correspondence `c10Corr` and the falsy body `0`, and the write
emits a body-less Data frame there. -/
theorem c10_falsy_body_dropped_witness :
    c10Corr.writable = true ∧ (Json.num 0).truthy = false ∧
    c10Corr.write (Json.num 0) = Except.ok { c10Corr with sent := c10Corr.sent ++
        [{ type := some MessageTypes.Data, header := some c10Corr.header,
           error := none, body := none }] } :=
  ⟨rfl, rfl, (c10_falsy_body_dropped c10Corr rfl (Json.num 0) rfl).1⟩

/-- C8: termination is one-shot.  On any correspondence whose `writable`
flag has dropped, every `write`/`finish`/`error` call raises
UnwritableCorrespondenceError and no frame reaches the stream (an arbitrary
sequence of further calls leaves the state untouched); and a successful
`finish` or `error` itself drops the flag, so the second terminating call
always fails frameless. -/
theorem c8_no_frame_after_unwritable (c : Correspondence) :
    (∀ cmds, c.writable = false → c.runCommands cmds = c) ∧
    (∀ b c2, c.finish b = Except.ok c2 →
      c2.writable = false ∧
      c2.sent = c.sent ++ [c.makeMessage (some MessageTypes.Finish) b none] ∧
      (∀ b2, c2.finish b2 = Except.error CorrespondenceFailure.unwritable) ∧
      (∀ e, c2.error e = Except.error CorrespondenceFailure.unwritable) ∧
      (∀ d, c2.write d = Except.error CorrespondenceFailure.unwritable)) ∧
    (∀ e c2, c.error e = Except.ok c2 →
      c2.writable = false ∧
      c2.sent = c.sent ++ [c.makeMessage (some MessageTypes.Error) none (some e)] ∧
      (∀ b2, c2.finish b2 = Except.error CorrespondenceFailure.unwritable) ∧
      (∀ e2, c2.error e2 = Except.error CorrespondenceFailure.unwritable) ∧
      (∀ d, c2.write d = Except.error CorrespondenceFailure.unwritable)) := by
  refine ⟨?_, ?_, ?_⟩
  · intro cmds
    induction cmds generalizing c with
    | nil => intro _; rfl
    | cons cmd rest ih =>
      intro hw
      have hfail := writes_fail_unwritable hw
      cases cmd with
      | write d =>
        simp [Correspondence.runCommands, Correspondence.applyCommand,
          hfail.1 d, ih c hw]
      | finish b =>
        simp [Correspondence.runCommands, Correspondence.applyCommand,
          hfail.2.1 b, ih c hw]
      | error e =>
        simp [Correspondence.runCommands, Correspondence.applyCommand,
          hfail.2.2 e, ih c hw]
  · intro b c2 hok
    cases hw : c.writable with
    | false =>
      rw [(writes_fail_unwritable hw).2.1 b] at hok
      cases hok
    | true =>
      rw [finish_ok b hw] at hok
      cases hok
      refine ⟨rfl, rfl, ?_, ?_, ?_⟩ <;> intro x
      · exact (writes_fail_unwritable rfl).2.1 x
      · exact (writes_fail_unwritable rfl).2.2 x
      · exact (writes_fail_unwritable rfl).1 x
  · intro e c2 hok
    cases hw : c.writable with
    | false =>
      rw [(writes_fail_unwritable hw).2.2 e] at hok
      cases hok
    | true =>
      rw [error_ok e hw] at hok
      cases hok
      refine ⟨rfl, rfl, ?_, ?_, ?_⟩ <;> intro x
      · exact (writes_fail_unwritable rfl).2.1 x
      · exact (writes_fail_unwritable rfl).2.2 x
      · exact (writes_fail_unwritable rfl).1 x

/-- Correspondence used to witness claim C8. -/
def c8Corr : Correspondence :=
  Correspondence.construct true { correspondenceId := some "c8", subject := some "s" }

/-- State of `c8Corr` after one successful finish. -/
def c8Closed : Correspondence :=
  { c8Corr with
    writable := false,
    sent := c8Corr.sent ++ [c8Corr.makeMessage (some MessageTypes.Finish) none none] }

/-- C8 witness: at the concrete correspondence `c8Corr`, one finish
succeeds, the second finish and a subsequent error raise
UnwritableCorrespondenceError, and a later write sequence leaves the state
(and hence the stream) untouched. -/
theorem c8_no_frame_after_unwritable_witness :
    c8Corr.finish none = Except.ok c8Closed ∧
    c8Closed.writable = false ∧
    c8Closed.finish none = Except.error CorrespondenceFailure.unwritable ∧
    c8Closed.error genericMessageError = Except.error CorrespondenceFailure.unwritable ∧
    c8Closed.runCommands [WriteCommand.write Json.null] = c8Closed := by
  have h := (c8_no_frame_after_unwritable c8Corr).2.1 none c8Closed (by rfl)
  exact ⟨by rfl, h.1, h.2.2.1 none, h.2.2.2.1 genericMessageError,
    (c8_no_frame_after_unwritable c8Closed).1 [WriteCommand.write Json.null] rfl⟩

/-- Header of the live correspondence of the C6 scenario. -/
def c6Header : MessageHeader :=
  { correspondenceId := some "c6", subject := some "s" }

/-- A live (readable and writable) correspondence tracked by `c6Peer`. -/
def c6Live : Correspondence := Correspondence.construct true c6Header

/-- A connected peer tracking one live correspondence. -/
def c6Peer : Peer :=
  { isConnected := true, correspondences := [("c6", c6Live)], sentFrames := [] }

/-- C6: the claim says Peer.disconnect forcibly marks every live
correspondence unreadable and unwritable, resolves pending `next` waiters
with a PeerDisconnected-kind error, and makes later write/finish/error
calls fail likewise.  The code does none of this: `disconnect` only detaches
the parser and clears the stream references (the source carries `TODO: Make
unwritable/unreadable if peer disconnects` comments in correspondence.mjs),
so after disconnect the tracked correspondence is unchanged — still readable
and writable — and a `write` on it still succeeds and emits a frame. -/
theorem c6_disconnect_leaves_correspondence_open :
    (Peer.disconnect c6Peer).isConnected = false ∧
    corrGet (Peer.disconnect c6Peer).correspondences "c6" = some c6Live ∧
    c6Live.readable = true ∧ c6Live.writable = true ∧
    c6Live.write (Json.str "x") = Except.ok { c6Live with
      sent := c6Live.sent ++
        [c6Live.makeMessage (some MessageTypes.Data) (some (Json.str "x")) none] } := by
  exact ⟨rfl, rfl, rfl, rfl, writeMessage_writable rfl⟩

/-- C3: for every handler invocation — any handler body and any exception
handler chain, whether the body returns normally or throws into the
exception pipeline — at return time either the correspondence is unwritable
or the Server emits exactly one UnfinishedCorrespondenceError event carrying
the (still writable) final correspondence state, and nothing else; the
emission itself writes no frame (the returned state is the event's
payload). -/
theorem c3_unwritable_or_unfinished (exceptionHandlers : List ExceptionHandler)
    (c : Correspondence) (handler : List HandlerStep) :
    ((Server.applyHandler exceptionHandlers c handler).1.writable = false ∨
      (Server.applyHandler exceptionHandlers c handler).2
        = [ServerEvent.unfinishedCorrespondence
            (Server.applyHandler exceptionHandlers c handler).1]) ∧
    ((Server.applyHandler exceptionHandlers c handler).2 = [] ∨
      (Server.applyHandler exceptionHandlers c handler).2
        = [ServerEvent.unfinishedCorrespondence
            (Server.applyHandler exceptionHandlers c handler).1]) := by
  have hsnd : (Server.applyHandler exceptionHandlers c handler).2
      = if (Server.applyHandler exceptionHandlers c handler).1.writable
        then [ServerEvent.unfinishedCorrespondence
                (Server.applyHandler exceptionHandlers c handler).1]
        else [] := rfl
  cases hw : (Server.applyHandler exceptionHandlers c handler).1.writable with
  | false => rw [hsnd, hw]; simp
  | true => rw [hsnd, hw]; simp

/-- C5: Peer.send on a connected peer — with the correspondence id assigned
by the MessageHeader constructor when absent — validates the message, writes
exactly one frame, records the new correspondence in the map under that id
and returns it (writable); on a disconnected peer, send fails with
PeerDisconnectedError. -/
theorem c5_send (p : Peer) (hp : p.isConnected = true)
    (g subject : String) (cid auth : Option String)
    (hcid : 0 < (cid.getD g).length) (hsub : 0 < subject.length)
    (ty : Option String) (err : Option MessageError) (body : Option Json)
    (hdr : MessageHeader)
    (hhdr : hdr = MessageHeader.construct g
      { correspondenceId := cid, subject := some subject, authorization := auth }) :
    hdr.correspondenceId = some (cid.getD g) ∧
    Peer.send p { type := ty, header := some hdr, error := err, body := body }
      = Except.ok
        ({ p with
            sentFrames := p.sentFrames ++
              [{ type := some (ty.getD MessageTypes.Data), header := some hdr,
                 error := err, body := body }],
            correspondences := corrSet p.correspondences (cid.getD g)
              (Correspondence.construct true hdr) },
         Correspondence.construct true hdr) ∧
    (Correspondence.construct true hdr).writable = true ∧
    (∀ (q : Peer) (msg : Message), q.isConnected = false →
      Peer.send q msg = Except.error PeerFailure.peerDisconnected) := by
  subst hhdr
  have hne1 : ((cid.getD g) != "") = true := by
    rw [bne_iff_ne]
    intro hEq
    rw [hEq] at hcid
    simp at hcid
  have hne2 : (subject != "") = true := by
    rw [bne_iff_ne]
    intro hEq
    rw [hEq] at hsub
    simp at hsub
  refine ⟨rfl, ?_, ?_, ?_⟩
  · simp [Peer.send, hp, Message.validate, MessageHeader.construct,
      Message.correspondenceKey, hcid, hsub]
  · simp [Correspondence.construct, MessageHeader.construct, hne1, hne2]
  · intro q msg hq
    simp [Peer.send, hq]

/-- Header built on the send path of the C5 witness, with no explicit
correspondence id. -/
def c5Hdr : MessageHeader :=
  MessageHeader.construct "gen"
    { correspondenceId := none, subject := some "subj", authorization := none }

/-- C5 witness: hypotheses of `c5_send` discharged at a fresh connected
peer and a header with no explicit id; the generated id is assigned and the
returned correspondence is writable. -/
theorem c5_send_witness :
    Peer.construct.isConnected = true ∧
    0 < ((none : Option String).getD "gen").length ∧
    0 < "subj".length ∧
    c5Hdr.correspondenceId = some "gen" ∧
    (Correspondence.construct true c5Hdr).writable = true := by
  have h := c5_send Peer.construct rfl "gen" "subj" none none (by decide)
    (by decide) none none none c5Hdr rfl
  exact ⟨rfl, by decide, by decide, h.1, h.2.2.1⟩

/-- Header of the C7 scenario message. -/
def c7Header : MessageHeader :=
  { correspondenceId := some "c7", subject := some "s" }

/-- A valid Data message whose id is not yet tracked. -/
def c7Message : Message :=
  { type := some MessageTypes.Data, header := some c7Header,
    body := some (Json.str "one") }

/-- C7 counterexample: on a fresh valid message the Peer performs create,
then *emit*, then insert, then ingest — the `correspondence` event is
emitted BEFORE the map insertion, whereas the claim states the entry is
inserted into the map first and the event emitted afterwards. -/
theorem c7_counterexample :
    (Peer.construct.handleMessage c7Message).2
      = [PeerAction.createCorrespondence "c7",
         PeerAction.emitCorrespondenceEvent "c7",
         PeerAction.insertCorrespondence "c7", PeerAction.ingest "c7"] ∧
    (Peer.construct.handleMessage c7Message).2
      ≠ [PeerAction.createCorrespondence "c7",
         PeerAction.insertCorrespondence "c7",
         PeerAction.emitCorrespondenceEvent "c7", PeerAction.ingest "c7"] := by
  exact ⟨rfl, by decide⟩

/-- C7 (amended): for every valid message whose correspondence id is not
yet tracked, the Peer creates the new Correspondence bound to its stream
and the message header, emits the `correspondence` event carrying it, THEN
inserts it into the map, and only after all that ingests the message into
it — so the event still fires before the first frame is consumed and a
synchronous subscriber can observe chunk 1. -/
theorem c7_event_before_ingest (p : Peer) (m : Message)
    (hv : Message.validate m = true)
    (hfresh : corrGet p.correspondences m.correspondenceKey = none) :
    (p.handleMessage m).2
      = [PeerAction.createCorrespondence m.correspondenceKey,
         PeerAction.emitCorrespondenceEvent m.correspondenceKey,
         PeerAction.insertCorrespondence m.correspondenceKey,
         PeerAction.ingest m.correspondenceKey] ∧
    corrGet (p.handleMessage m).1.correspondences m.correspondenceKey
      = some ((Correspondence.construct p.isConnected (m.header.getD {})).handle m).1 := by
  constructor <;> simp [Peer.handleMessage, hv, hfresh, corrGet_corrSet]

/-- Header of the C7 witness message. -/
def c7WHeader : MessageHeader :=
  { correspondenceId := some "w7", subject := some "s" }

/-- Fresh valid message of the C7 witness. -/
def c7WMessage : Message :=
  { type := some MessageTypes.Data, header := some c7WHeader, body := some Json.null }

/-- C7 witness: hypotheses of `c7_event_before_ingest` discharged at a
fresh peer and the concrete message `c7WMessage`. -/
theorem c7_event_before_ingest_witness :
    Message.validate c7WMessage = true ∧
    corrGet Peer.construct.correspondences c7WMessage.correspondenceKey = none ∧
    (Peer.construct.handleMessage c7WMessage).2
      = [PeerAction.createCorrespondence "w7",
         PeerAction.emitCorrespondenceEvent "w7",
         PeerAction.insertCorrespondence "w7", PeerAction.ingest "w7"] := by
  have h := c7_event_before_ingest Peer.construct c7WMessage rfl rfl
  exact ⟨rfl, rfl, h.1⟩

/-- Header used throughout the C9 scenario. -/
def c9Header : MessageHeader :=
  { correspondenceId := some "c3", subject := some "s" }

/-- A fully terminated correspondence: both halves closed. -/
def c9Terminated : Correspondence :=
  { readable := false, writable := false, header := c9Header, sent := [] }

/-- A peer still tracking the fully terminated correspondence. -/
def c9Peer : Peer :=
  { isConnected := true, correspondences := [("c3", c9Terminated)],
    sentFrames := [] }

/-- A later valid Data frame reusing the terminated id. -/
def c9Late : Message :=
  { type := some MessageTypes.Data, header := some c9Header,
    body := some (Json.str "y") }

/-- C9 counterexample: with a fully terminated correspondence (both halves
closed) still tracked under "c3", the entry is never removed from the map,
and a later valid Data frame with the same id is NOT treated as a brand-new
correspondence: no `correspondence` event is emitted and the frame is
ingested into the terminated instance. -/
theorem c9_counterexample :
    corrGet c9Peer.correspondences "c3" = some c9Terminated ∧
    c9Terminated.readable = false ∧ c9Terminated.writable = false ∧
    (c9Peer.handleMessage c9Late).2 = [PeerAction.ingest "c3"] ∧
    corrGet (c9Peer.handleMessage c9Late).1.correspondences "c3"
      = some (c9Terminated.handle c9Late).1 := by
  exact ⟨rfl, rfl, rfl, rfl, rfl⟩

/-- C9 (amended): the Peer never removes entries from its correspondence
map, not even after both halves close; a tracked id keeps its entry across
handleMessage and disconnect, and a later valid frame carrying a tracked id
is always ingested into the existing instance rather than treated as a
brand-new correspondence. -/
theorem c9_entries_never_removed (p : Peer) (m : Message) (id : String)
    (c : Correspondence) (hv : Message.validate m = true)
    (hid : m.correspondenceKey = id)
    (hc : corrGet p.correspondences id = some c) :
    (p.handleMessage m).2 = [PeerAction.ingest id] ∧
    corrGet (p.handleMessage m).1.correspondences id = some (c.handle m).1 ∧
    (∀ (q : Peer) (msg : Message) (i : String),
      corrGet q.correspondences i ≠ none →
      corrGet (q.handleMessage msg).1.correspondences i ≠ none) ∧
    (∀ q : Peer, (Peer.disconnect q).correspondences = q.correspondences) := by
  subst hid
  refine ⟨?_, ?_, ?_, fun q => rfl⟩
  · simp [Peer.handleMessage, hv, hc]
  · simp [Peer.handleMessage, hv, hc, corrGet_corrSet]
  · intro q msg i hne
    by_cases hvq : Message.validate msg = true
    · cases hq : corrGet q.correspondences msg.correspondenceKey with
      | some cq =>
        by_cases hii : msg.correspondenceKey = i
        · subst hii
          simp [Peer.handleMessage, hvq, hq, corrGet_corrSet]
        · simp [Peer.handleMessage, hvq, hq, corrGet_corrSet, hii, hne]
      | none =>
        by_cases hii : msg.correspondenceKey = i
        · subst hii
          simp [Peer.handleMessage, hvq, hq, corrGet_corrSet]
        · simp [Peer.handleMessage, hvq, hq, corrGet_corrSet, hii, hne]
    · have hvq2 : Message.validate msg = false := by
        cases hb : Message.validate msg
        · rfl
        · exact absurd hb hvq
      simpa [Peer.handleMessage, hvq2] using hne

/-- Live correspondence of the C9 witness. -/
def c9WCorr : Correspondence :=
  Correspondence.construct true { correspondenceId := some "w9", subject := some "s" }

/-- Peer of the C9 witness, tracking `c9WCorr`. -/
def c9WPeer : Peer :=
  { isConnected := true, correspondences := [("w9", c9WCorr)], sentFrames := [] }

/-- Message of the C9 witness, on the tracked id. -/
def c9WMsg : Message :=
  { type := some MessageTypes.Data,
    header := some { correspondenceId := some "w9", subject := some "s" },
    body := some Json.null }

/-- C9 witness: hypotheses of `c9_entries_never_removed` discharged at the
concrete peer `c9WPeer` and message `c9WMsg`. -/
theorem c9_entries_never_removed_witness :
    Message.validate c9WMsg = true ∧
    c9WMsg.correspondenceKey = "w9" ∧
    corrGet c9WPeer.correspondences "w9" = some c9WCorr ∧
    (c9WPeer.handleMessage c9WMsg).2 = [PeerAction.ingest "w9"] := by
  have h := c9_entries_never_removed c9WPeer c9WMsg "w9" c9WCorr rfl rfl rfl
  exact ⟨rfl, rfl, rfl, h.1⟩

/-- The exception pipeline invokes a contiguous run of handler positions
starting at the head: the recorded positions form `List.range'` of the
starting index. -/
theorem runExceptionHandlers_invoked (e : ExceptionValue)
    (hs : List ExceptionHandler) :
    ∀ (i : Nat) (c : Correspondence),
      (runExceptionHandlers e i c hs).2.2
        = List.range' i (runExceptionHandlers e i c hs).2.2.length := by
  induction hs with
  | nil => intro i c; rfl
  | cons h rest ih =>
    intro i c
    cases hw : c.writable with
    | false => simp [runExceptionHandlers, hw]
    | true =>
      simp only [runExceptionHandlers, hw, if_true]
      cases hrs : runHandlerScript c (h e) with
      | mk c2 thrown =>
        cases thrown with
        | none =>
          simp only [List.length_cons]
          rw [List.range'_succ i _ 1]
          exact congrArg (i :: ·) (ih (i + 1) c2)
        | some v => simp [List.range'_one]

/-- C4 (amended): the exception pipeline iterates the registered exception
handlers from head to tail (the invoked positions form an initial segment,
in order), passing each the thrown value over the shared writable view and
awaiting it; invocation stops as soon as the correspondence is unwritable
(an already-unwritable correspondence invokes no handler at all); and when
an exception handler itself throws, the catch block sends a final Error
frame with type "GenericError" and message "Failed processing
correspondence" — PROVIDED the correspondence is still writable; when the
throwing handler has already closed it, the recovery write itself raises
UnwritableCorrespondenceError and no frame is emitted. -/
theorem c4_exception_pipeline (e : ExceptionValue) (c c2 : Correspondence)
    (hs : List ExceptionHandler) (thrown : Option ExceptionValue)
    (invoked : List Nat)
    (hrun : runExceptionHandlers e 0 c hs = (c2, thrown, invoked)) :
    invoked = List.range invoked.length ∧
    (c.writable = false → c2 = c ∧ thrown = none ∧ invoked = []) ∧
    (∀ v, thrown = some v →
      (c2.writable = true →
        Server.handleException c hs e
          = ({ c2 with
                writable := false,
                sent := c2.sent ++
                  [c2.makeMessage (some MessageTypes.Error) none
                    (some genericMessageError)] },
             none)) ∧
      (c2.writable = false →
        Server.handleException c hs e
          = (c2, some "UnwritableCorrespondenceError"))) := by
  refine ⟨?_, ?_, ?_⟩
  · have hinv := runExceptionHandlers_invoked e hs 0 c
    rw [hrun] at hinv
    rw [List.range_eq_range']
    exact hinv
  · intro hw
    have hstop : runExceptionHandlers e 0 c hs = (c, none, []) := by
      cases hs with
      | nil => rfl
      | cons h rest => simp [runExceptionHandlers, hw]
    rw [hrun] at hstop
    exact ⟨congrArg Prod.fst hstop,
      congrArg (fun r => r.2.1) hstop,
      congrArg (fun r => r.2.2) hstop⟩
  · intro v hv
    constructor
    · intro hw2
      simp [Server.handleException, hrun, hv, error_ok genericMessageError hw2]
    · intro hw2
      simp [Server.handleException, hrun, hv,
        (writes_fail_unwritable hw2).2.2 genericMessageError]

/-- Correspondence of the C4 counterexample. -/
def c4Corr : Correspondence :=
  Correspondence.construct true { correspondenceId := some "c4", subject := some "s" }

/-- An exception handler chain whose head closes the correspondence and
then throws. -/
def c4Handlers : List ExceptionHandler :=
  [fun _ => [HandlerStep.finish none, HandlerStep.throwValue "boom"]]

/-- C4 counterexample: the exception handler finishes the correspondence
and then throws; the catch block's recovery `error` call itself raises
UnwritableCorrespondenceError, so NO final GenericError frame is sent — the
only frame on the stream is the handler's own Finish — contradicting the
claim that a throwing exception handler always leads to a GenericError
frame being sent on the correspondence. -/
theorem c4_counterexample :
    (Server.handleException c4Corr c4Handlers "exc").1.sent
      = [c4Corr.makeMessage (some MessageTypes.Finish) none none] ∧
    (c4Corr.makeMessage (some MessageTypes.Finish) none none).error = none ∧
    (c4Corr.makeMessage (some MessageTypes.Finish) none none).type
      = some MessageTypes.Finish ∧
    (Server.handleException c4Corr c4Handlers "exc").2
      = some "UnwritableCorrespondenceError" := by
  exact ⟨rfl, rfl, rfl, rfl⟩

/-- Correspondence of the C4 witness. -/
def c4WCorr : Correspondence :=
  Correspondence.construct true { correspondenceId := some "w4", subject := some "s" }

/-- Exception handler chain of the C4 witness: one handler that errors the
correspondence. -/
def c4WHandlers : List ExceptionHandler :=
  [fun _ => [HandlerStep.error genericMessageError]]

/-- State of `c4WCorr` after the witness pipeline ran. -/
def c4WAfter : Correspondence :=
  { c4WCorr with
    writable := false,
    sent := c4WCorr.sent ++
      [c4WCorr.makeMessage (some MessageTypes.Error) none (some genericMessageError)] }

/-- C4 witness: `c4_exception_pipeline` applied at a concrete pipeline run
(`hrun` discharged by computation); the single invoked position forms the
initial segment. -/
theorem c4_exception_pipeline_witness :
    runExceptionHandlers "x" 0 c4WCorr c4WHandlers = (c4WAfter, none, [0]) ∧
    [0] = List.range (List.length [0]) := by
  refine ⟨rfl, ?_⟩
  exact (c4_exception_pipeline "x" c4WCorr c4WAfter c4WHandlers none [0] rfl).1

/-- Prepends a list of yielded chunks to a generator result. -/
def AllResult.consChunks (bs : List (Option Json)) (r : AllResult) : AllResult :=
  bs.foldr AllResult.consChunk r

/-- Prepending chunks to a normally completed generator result. -/
theorem consChunks_finished (bs : List (Option Json)) (cs : List (Option Json)) :
    AllResult.consChunks bs (.finished cs) = .finished (bs ++ cs) := by
  induction bs with
  | nil => rfl
  | cons b rest ih => simp [AllResult.consChunks, AllResult.consChunk, ih,
      List.foldr_cons] at ih ⊢; simp [ih]

/-- Prepending chunks to an errored generator result. -/
theorem consChunks_errored (bs : List (Option Json)) (cs : List (Option Json))
    (e : MessageError) :
    AllResult.consChunks bs (.errored cs e) = .errored (bs ++ cs) e := by
  induction bs with
  | nil => rfl
  | cons b rest ih => simp [AllResult.consChunks, AllResult.consChunk, ih,
      List.foldr_cons] at ih ⊢; simp [ih]

/-- Ingesting one Data frame while `all` is waiting: its body (present or
not) is yielded as a chunk and the generator continues on the updated
correspondence, which is still readable. -/
theorem all_cons_data (c : Correspondence) (hr : c.readable = true)
    (m : Message) (hm : m.type = some MessageTypes.Data) (ms : List Message) :
    Correspondence.all c (m :: ms)
      = AllResult.consChunk m.body
          (Correspondence.all { c with header := m.header.getD c.header } ms) := by
  have hhandle : c.handle m
      = ({ c with header := m.header.getD c.header },
         [ReadEvent.data m.body false]) := by
    simp [Correspondence.handle, hm]
  simp [Correspondence.all, Correspondence.allRun, hhandle, nextChunkOutcome, hr]

/-- Running `all` over a prefix of Data frames yields exactly their bodies,
in order, before whatever the remaining frames produce, with the
correspondence still readable. -/
theorem all_data_prefix (datas : List Message) :
    ∀ (c : Correspondence), c.readable = true →
      (∀ m ∈ datas, m.type = some MessageTypes.Data) →
      ∀ (rest : List Message),
        ∃ c2 : Correspondence, c2.readable = true ∧
          Correspondence.all c (datas ++ rest)
            = AllResult.consChunks (datas.map (fun m => m.body))
                (Correspondence.all c2 rest) := by
  induction datas with
  | nil =>
    intro c hr _ rest
    exact ⟨c, hr, rfl⟩
  | cons m ms ih =>
    intro c hr hd rest
    have hm : m.type = some MessageTypes.Data := hd m (List.mem_cons_self m ms)
    have hd2 : ∀ x ∈ ms, x.type = some MessageTypes.Data :=
      fun x hx => hd x (List.mem_cons_of_mem m hx)
    obtain ⟨c2, hc2r, hc2⟩ :=
      ih { c with header := m.header.getD c.header } hr hd2 rest
    refine ⟨c2, hc2r, ?_⟩
    rw [List.cons_append, all_cons_data c hr m hm (ms ++ rest), hc2]
    rfl

/-- A Finish frame with a body, ingested while `all` waits on a readable
correspondence, yields the body and then completes the generator. -/
theorem all_finish_with_body (c : Correspondence) (hr : c.readable = true)
    (h : Option MessageHeader) (b : Json) :
    Correspondence.all c
        [{ type := some MessageTypes.Finish, header := h, body := some b }]
      = AllResult.finished [some b] := by
  simp [Correspondence.all, Correspondence.allRun, Correspondence.handle,
    nextChunkOutcome, hr, AllResult.consChunk, MessageTypes.Data,
    MessageTypes.Error, MessageTypes.Finish]

/-- A body-less Finish frame completes the generator without a chunk. -/
theorem all_finish_no_body (c : Correspondence) (hr : c.readable = true)
    (h : Option MessageHeader) :
    Correspondence.all c [{ type := some MessageTypes.Finish, header := h }]
      = AllResult.finished [] := by
  simp [Correspondence.all, Correspondence.allRun, Correspondence.handle,
    nextChunkOutcome, hr, MessageTypes.Data, MessageTypes.Error,
    MessageTypes.Finish]

/-- An Error frame with a well-formed payload propagates the error out of
the generator. -/
theorem all_error_frame (c : Correspondence) (hr : c.readable = true)
    (h : Option MessageHeader) (e : MessageError)
    (he1 : (e.type.getD "" != "") = true)
    (he2 : (e.message.getD "" != "") = true) :
    Correspondence.all c
        [{ type := some MessageTypes.Error, header := h, error := some e }]
      = AllResult.errored [] e := by
  simp [Correspondence.all, Correspondence.allRun, Correspondence.handle,
    nextChunkOutcome, hr, he1, he2, MessageTypes.Data, MessageTypes.Error,
    MessageTypes.Finish]

/-- C1 (amended): for a correspondence whose frames are consumed by `all`,
the chunks yielded are the bodies of ALL Data frames in arrival order — a
Data frame with an absent body yields an `undefined` chunk (`none`) rather
than being skipped, which is where the claim's "non-empty Data bodies"
wording fails — followed by the body of the terminating Finish when it
carries one; a Finish with a body publishes the body as a data chunk first
and the generator then completes normally; a body-less Finish completes it
without a further chunk; an Error frame with a well-formed payload makes
the generator propagate that error. -/
theorem c1_all_yields_all_bodies (c : Correspondence) (hr : c.readable = true)
    (datas : List Message)
    (hd : ∀ m ∈ datas, m.type = some MessageTypes.Data)
    (h : MessageHeader) (e : MessageError)
    (he1 : (e.type.getD "" != "") = true)
    (he2 : (e.message.getD "" != "") = true) :
    (∀ b : Json,
      Correspondence.all c (datas ++
          [{ type := some MessageTypes.Finish, header := some h, body := some b }])
        = AllResult.finished (datas.map (fun m => m.body) ++ [some b])) ∧
    (Correspondence.all c (datas ++
        [{ type := some MessageTypes.Finish, header := some h }])
      = AllResult.finished (datas.map (fun m => m.body))) ∧
    (Correspondence.all c (datas ++
        [{ type := some MessageTypes.Error, header := some h, error := some e }])
      = AllResult.errored (datas.map (fun m => m.body)) e) := by
  refine ⟨?_, ?_, ?_⟩
  · intro b
    obtain ⟨c2, hc2r, hc2⟩ := all_data_prefix datas c hr hd
      [{ type := some MessageTypes.Finish, header := some h, body := some b }]
    rw [hc2, all_finish_with_body c2 hc2r (some h) b, consChunks_finished]
  · obtain ⟨c2, hc2r, hc2⟩ := all_data_prefix datas c hr hd
      [{ type := some MessageTypes.Finish, header := some h }]
    rw [hc2, all_finish_no_body c2 hc2r (some h), consChunks_finished,
      List.append_nil]
  · obtain ⟨c2, hc2r, hc2⟩ := all_data_prefix datas c hr hd
      [{ type := some MessageTypes.Error, header := some h, error := some e }]
    rw [hc2, all_error_frame c2 hc2r (some h) e he1 he2, consChunks_errored,
      List.append_nil]

/-- Header of the C1 scenario. -/
def c1Header : MessageHeader :=
  { correspondenceId := some "c1", subject := some "s" }

/-- A Data frame carrying no body. -/
def c1DataNoBody : Message :=
  { type := some MessageTypes.Data, header := some c1Header }

/-- A Finish frame carrying no body. -/
def c1FinishNoBody : Message :=
  { type := some MessageTypes.Finish, header := some c1Header }

/-- The fresh readable correspondence of the C1 scenario. -/
def c1Corr : Correspondence := Correspondence.construct true c1Header

/-- Modelled from the spec: the chunk sequence predicted by claim C1 — the
sequence of non-empty Data bodies followed, when the terminating Finish
carries one, by that body. -/
def c1ClaimChunks (datas : List Message) (finishBody : Option Json) :
    List (Option Json) :=
  (datas.filterMap (fun m => m.body)).map some ++
    (match finishBody with
     | some b => [some b]
     | none => [])

/-- C1 counterexample: on the frame sequence Data-without-body then
body-less Finish, the generator yields one `undefined` chunk (`none`), while
the claim's "sequence of non-empty Data bodies" predicts no chunk at all. -/
theorem c1_counterexample :
    Correspondence.all c1Corr [c1DataNoBody, c1FinishNoBody]
      = AllResult.finished [none] ∧
    c1ClaimChunks [c1DataNoBody] none = [] ∧
    Correspondence.all c1Corr [c1DataNoBody, c1FinishNoBody]
      ≠ AllResult.finished (c1ClaimChunks [c1DataNoBody] none) := by
  refine ⟨rfl, rfl, ?_⟩
  intro hEq
  have h1 : Correspondence.all c1Corr [c1DataNoBody, c1FinishNoBody]
      = AllResult.finished [none] := rfl
  have h2 : c1ClaimChunks [c1DataNoBody] none = [] := rfl
  rw [h1, h2] at hEq
  injection hEq with h3
  simp at h3

/-- A Data frame with a body, for the C1 witness. -/
def c1WData : Message :=
  { type := some MessageTypes.Data, header := some c1Header,
    body := some (Json.str "a") }

/-- C1 witness: `c1_all_yields_all_bodies` at a concrete readable
correspondence, one Data frame and a Finish with a body. -/
theorem c1_all_yields_all_bodies_witness :
    c1Corr.readable = true ∧
    c1WData.type = some MessageTypes.Data ∧
    Correspondence.all c1Corr [c1WData,
        { type := some MessageTypes.Finish, header := some c1Header,
          body := some (Json.str "b") }]
      = AllResult.finished [some (Json.str "a"), some (Json.str "b")] := by
  have h := c1_all_yields_all_bodies c1Corr rfl [c1WData]
    (by intro m hm
        have : m = c1WData := by simpa using hm
        rw [this]
        rfl)
    c1Header { type := some "E", message := some "m" } rfl rfl
  have h2 := h.1 (Json.str "b")
  exact ⟨rfl, rfl, by simpa using h2⟩

end Nlon
